import Mathlib

/-!
Verification of the OppAttach backend's payment-and-application lifecycle.

The definitions below are a shallow embedding of the JavaScript source:

* `AppStatus`, `Application`, `Opportunity` mirror the Mongoose data model.
* `paystackWebhookHandler` embeds the exported webhook handler of the
  Paystack-flow applications router.
* `verifyWebhookSignature` embeds the helper of `src/utils/paystack.js`;
  the HMAC primitive is an explicit function parameter.
* `createApplicationPaystack`, `createApplicationMpesa`, `payMpesaRoute`,
  `mpesaCallback`, `adminUpdateStatus`, `patchApplicationRoute` embed the
  corresponding Express route handlers.  The document store is a
  `List Application`; `find?` models `findOne`/`findById` (first match) and
  `updateFirst` models fetching a document and saving it back.
* JavaScript `x ?? d` on an optional field is `Option.getD`-style matching,
  `x || d` additionally treats `0`/empty string as absent, and amounts are
  rationals (JavaScript numbers).
-/

namespace OppAttach

/-- Status enum of the Application model. -/
inductive AppStatus
  | pending_payment
  | submitted
  | under_review
  | shortlisted
  | rejected
  | accepted
deriving DecidableEq

/-- Position of a status in the review pipeline; the three terminal review
outcomes share a rank. -/
def rank : AppStatus → Nat
  | .pending_payment => 0
  | .submitted => 1
  | .under_review => 2
  | .shortlisted => 3
  | .rejected => 3
  | .accepted => 3

/-- An Application document. -/
structure Application where
  id : String
  userId : String
  opportunityId : String
  resumeUrl : String
  recommendationLetterUrl : Option String
  coverLetter : Option String
  status : AppStatus
  amountPaid : Option ℚ
  paymentTransactionId : Option String
  mpesaCheckoutRequestId : Option String
  mpesaTransactionId : Option String
deriving DecidableEq

/-- An Opportunity document (the fields the application routes read). -/
structure Opportunity where
  id : String
  isActive : Bool
  type : String
  applicationFee : Option ℚ
  title : String
deriving DecidableEq

/-- The authenticated user attached to a request. -/
structure UserT where
  id : String
  email : String
  name : String
deriving DecidableEq

/-- An HTTP response: status code, message, and the optional `amount`
field some handlers include in the JSON body. -/
structure Resp where
  code : Nat
  message : String
  amount : Option ℚ
deriving DecidableEq

/-- Fetch-then-save on a Mongo-like store: apply `f` to the first element
satisfying `p`, leaving everything else in place. -/
def updateFirst (p : α → Bool) (f : α → α) : List α → List α
  | [] => []
  | a :: rest => if p a then f a :: rest else a :: updateFirst p f rest

/-- Status of the (first) application with the given id, as `findById` sees it. -/
def statusOf (db : List Application) (id : String) : Option AppStatus :=
  (db.find? (fun a => decide (a.id = id))).map (fun a => a.status)

/-- The second regex replacement of the webhook handler (hyphen, one or
more digits, end of string): drop a trailing hyphen + nonempty digit run,
if present. -/
def stripDisamb (l : List Char) : List Char :=
  if l.reverse.takeWhile Char.isDigit ≠ [] ∧
      (l.reverse.drop (l.reverse.takeWhile Char.isDigit).length).head? = some '-' then
    (l.reverse.drop (l.reverse.takeWhile Char.isDigit).length).tail.reverse
  else l

/-- Reference parsing of the webhook handler: the guard
`reference.startsWith('APP-')` followed by stripping the leading `APP-`
and then any trailing hyphen-plus-digits disambiguator. -/
def parseReference (ref : String) : Option String :=
  if ref.toList.take 4 = ['A', 'P', 'P', '-'] then
    some (stripDisamb (ref.toList.drop 4)).asString
  else none

/-- The `data` object of a Paystack `charge.success` webhook payload. -/
structure ChargeData where
  reference : Option String
  id : Option Nat
  amount : Option ℚ
deriving DecidableEq

/-- A parsed Paystack webhook body. -/
structure WebhookBody where
  event : Option String
  data : Option ChargeData
deriving DecidableEq

/-- Subunit-to-whole-unit conversion `Number(amount) / 100` used when the
webhook stores `amountPaid`. -/
def centsToUnits (amount : ℚ) : ℚ := amount / 100

/-- Whole-unit-to-subunit conversion `Math.round(Number(amount) * 100)` of
`initializeTransaction` and `chargeMpesa` in `src/utils/paystack.js`. -/
def amountInSmallest (amount : ℚ) : ℤ := round (amount * 100)

/-- The Paystack webhook handler (`paystackWebhookHandler`): acknowledge,
parse the raw body (`none` models a JSON parse failure), accept only
`charge.success`, correlate by reference, and settle a `pending_payment`
application. -/
def paystackWebhookHandler (db : List Application) (body? : Option WebhookBody) :
    List Application :=
  match body? with
  | none => db
  | some body =>
    match body.event, body.data with
    | some ev, some d =>
      if ev = "charge.success" then
        match d.reference with
        | none => db
        | some ref =>
          match parseReference ref with
          | none => db
          | some applicationId =>
            match db.find? (fun a => decide (a.id = applicationId)) with
            | none => db
            | some app =>
              if app.status = AppStatus.pending_payment then
                updateFirst (fun a => decide (a.id = applicationId))
                  (fun a =>
                    { a with
                      status := AppStatus.submitted
                      paymentTransactionId := some (match d.id with
                        | some n => toString n
                        | none => ref)
                      amountPaid := match d.amount with
                        | some q => some (centsToUnits q)
                        | none => a.amountPaid })
                  db
              else db
      else db
    | _, _ => db

/-- Webhook signature check of `src/utils/paystack.js`: skipped when no
secret is configured, otherwise the hex HMAC-SHA512 of the raw payload must
equal the signature header.  The HMAC primitive is a parameter. -/
def verifyWebhookSignature (hmacSha512Hex : String → String → String)
    (secret : Option String) (payload signature : String) : Bool :=
  match secret with
  | none => true
  | some s => decide (hmacSha512Hex s payload = signature)

/-- Modelled from the spec: the mounting of the Paystack webhook endpoint
(the `index.js` that mounts `paystackWebhookHandler` with a raw body parser
is not among the provided sources).  Per spec 4.3 steps 1-2 it verifies the
signature over the raw bytes with `verifyWebhookSignature` and stops before
any processing when verification fails. -/
def paystackWebhookRoute (hmacSha512Hex : String → String → String)
    (secret : Option String) (parseJson : String → Option WebhookBody)
    (db : List Application) (rawBody signature : String) : List Application :=
  if verifyWebhookSignature hmacSha512Hex secret rawBody signature then
    paystackWebhookHandler db (parseJson rawBody)
  else db

/-- The fields of a Daraja STK callback the route reads.
`checkoutRequestID` is `result.CheckoutRequestID`, which the source never
checks for presence, so it may be absent (`none`); the metadata is
abstracted to the two items the route reads,
`getItem('MpesaReceiptNumber')` and `getItem('Amount')`. -/
structure StkCallback where
  checkoutRequestID : Option String
  resultCode : Int
  receipt : Option String
  amount : Option ℚ
deriving DecidableEq

/-- The mutation the M-Pesa callback route saves on the document
`findOne` returned: settle on `ResultCode === 0`, reset to
`pending_payment` otherwise, clearing the checkout id in both cases. -/
def mpesaSettle (cb : StkCallback) : Application → Application :=
  fun a =>
    if cb.resultCode = 0 then
      { a with
        status := AppStatus.submitted
        mpesaTransactionId := cb.receipt
        amountPaid := cb.amount
        mpesaCheckoutRequestId := none }
    else
      { a with
        status := AppStatus.pending_payment
        mpesaCheckoutRequestId := none }

/-- The M-Pesa Daraja callback route of the STK-flow applications router
(`router.post('/mpesa-callback')`): acknowledge, correlate by the stored
`mpesaCheckoutRequestId`, then settle or reset the found application.
`none` for `cb?` models a body without `Body.stkCallback`.  When the
callback carries no `CheckoutRequestID`, the source runs
`findOne({ mpesaCheckoutRequestId: undefined })`; Mongoose strips
undefined filter values, so that query matches the first document of the
collection, which is then mutated and saved. -/
def mpesaCallback (db : List Application) (cb? : Option StkCallback) :
    List Application :=
  match cb? with
  | none => db
  | some cb =>
    match cb.checkoutRequestID with
    | some c =>
      match db.find? (fun a => decide (a.mpesaCheckoutRequestId = some c)) with
      | none => db
      | some _ =>
        updateFirst (fun a => decide (a.mpesaCheckoutRequestId = some c))
          (mpesaSettle cb) db
    | none =>
      match db with
      | [] => db
      | a :: rest => mpesaSettle cb a :: rest

/-- String-to-status parsing implicit in the admin route's membership check
against `['submitted', 'under_review', 'shortlisted', 'rejected', 'accepted']`. -/
def parseAdminStatus : String → Option AppStatus
  | "submitted" => some AppStatus.submitted
  | "under_review" => some AppStatus.under_review
  | "shortlisted" => some AppStatus.shortlisted
  | "rejected" => some AppStatus.rejected
  | "accepted" => some AppStatus.accepted
  | _ => none

/-- Admin status edit (`router.patch('/admin/:id/status')`): any status in
the allowed list is written unconditionally via `findByIdAndUpdate`. -/
def adminUpdateStatus (db : List Application) (appId : String)
    (status? : Option String) : Resp × List Application :=
  match status? with
  | none =>
    (Resp.mk 400 "Invalid status. Use: submitted, under_review, shortlisted, rejected, accepted" none, db)
  | some s =>
    match parseAdminStatus s with
    | none =>
      (Resp.mk 400 "Invalid status. Use: submitted, under_review, shortlisted, rejected, accepted" none, db)
    | some st =>
      match db.find? (fun a => decide (a.id = appId)) with
      | none => (Resp.mk 404 "Application not found" none, db)
      | some _ =>
        (Resp.mk 200 "" none,
         updateFirst (fun a => decide (a.id = appId)) (fun a => { a with status := st }) db)

/-- Payment amount of `getPaymentLink` in the Paystack-flow router:
`opportunity?.applicationFee ?? 350`. -/
def getPaymentLinkAmount (opp? : Option Opportunity) : ℚ :=
  match opp? with
  | some o =>
    match o.applicationFee with
    | some f => f
    | none => 350
  | none => 350

/-- Payment reference of `getPaymentLink`: the interpolation
`APP-` + application id + `-` + `Date.now()`. -/
def getPaymentLinkReference (appId : String) (now : Nat) : String :=
  "APP-" ++ appId ++ "-" ++ toString now

/-- Payment amount of the `charge-mpesa` route of the Paystack-flow router:
`opp?.applicationFee ?? 350`. -/
def chargeMpesaRouteAmount (opp? : Option Opportunity) : ℚ :=
  match opp? with
  | some o =>
    match o.applicationFee with
    | some f => f
    | none => 350
  | none => 350

/-- Payment amount of the STK-flow creation route:
`opportunity.applicationFee || 500` (JavaScript `||`, so a fee of 0 also
falls back). -/
def stkCreateAmount (o : Opportunity) : ℚ :=
  match o.applicationFee with
  | some f => if f = 0 then 500 else f
  | none => 500

/-- Payment amount of the STK-flow pay route:
`application.opportunityId?.applicationFee || 500`. -/
def stkPayAmount (opp? : Option Opportunity) : ℚ :=
  match opp? with
  | some o => stkCreateAmount o
  | none => 500

/-- Payment reference of the STK-flow routes: the interpolation
`APP-` + application id, with no per-attempt suffix. -/
def stkReference (appId : String) : String := "APP-" ++ appId

/-- Body of an application-creation request (files are modelled by their
buffers; `none` means the field was not sent). -/
structure CreateRequest where
  opportunityId : String
  coverLetter : Option String
  phoneNumber : Option String
  resume : Option String
  recommendationLetter : Option String
deriving DecidableEq

/-- The duplicate-application query `findOne({ userId, opportunityId })`. -/
def pairPred (userId opportunityId : String) : Application → Bool :=
  fun a => decide (a.userId = userId) && decide (a.opportunityId = opportunityId)

/-- JavaScript `newVal || oldVal` on optional strings: the empty string is
falsy and also falls back. -/
def jsOr (newVal oldVal : Option String) : Option String :=
  match newVal with
  | some c => if c = "" then oldVal else some c
  | none => oldVal

/-- Tail of the Paystack-flow creation route, after the opportunity and
duplicate checks: file validation, uploads, and the save-or-create step.
`existingPending?` is the already-found `pending_payment` application, if
any. -/
def createPaystackRest (upload : String → String → String)
    (db : List Application) (opportunity : Opportunity) (user : UserT)
    (req : CreateRequest) (newId : String) (existingPending? : Option Application) :
    Resp × List Application :=
  match req.resume with
  | none => (Resp.mk 400 "Resume is required" none, db)
  | some resumeBuf =>
    if decide (opportunity.type = "attachment") && req.recommendationLetter.isNone then
      (Resp.mk 400 "Recommendation letter is required for attachments" none, db)
    else
      match existingPending? with
      | some _ =>
        (Resp.mk 200 "Application saved. Complete payment via the link to finish."
          (some (getPaymentLinkAmount (some opportunity))),
         updateFirst (pairPred user.id req.opportunityId)
          (fun a =>
            { a with
              resumeUrl := upload resumeBuf "internship-platform/resumes"
              recommendationLetterUrl :=
                match req.recommendationLetter.map
                    (fun b => upload b "internship-platform/recommendations") with
                | some u => some u
                | none => a.recommendationLetterUrl
              coverLetter := jsOr req.coverLetter a.coverLetter }) db)
      | none =>
        (Resp.mk 200 "Application saved. Complete payment via the link to finish."
          (some (getPaymentLinkAmount (some opportunity))),
         db ++ [{ id := newId, userId := user.id,
                  opportunityId := req.opportunityId,
                  resumeUrl := upload resumeBuf "internship-platform/resumes",
                  recommendationLetterUrl := req.recommendationLetter.map
                    (fun b => upload b "internship-platform/recommendations"),
                  coverLetter := jsOr req.coverLetter none,
                  status := AppStatus.pending_payment,
                  amountPaid := none, paymentTransactionId := none,
                  mpesaCheckoutRequestId := none,
                  mpesaTransactionId := none }])

/-- Application creation in the Paystack-flow router (`router.post('/')`):
an existing non-pending application is rejected, an existing
`pending_payment` one is overwritten in place, otherwise a new document is
created; `upload` stands for `uploadToCloudinary`. -/
def createApplicationPaystack (upload : String → String → String)
    (db : List Application) (opps : List Opportunity) (user : UserT)
    (req : CreateRequest) (newId : String) : Resp × List Application :=
  match opps.find? (fun o => decide (o.id = req.opportunityId)) with
  | none => (Resp.mk 404 "Opportunity not found" none, db)
  | some opportunity =>
    if opportunity.isActive = false then (Resp.mk 400 "Opportunity is closed" none, db)
    else
      match db.find? (pairPred user.id req.opportunityId) with
      | some e =>
        if e.status = AppStatus.pending_payment then
          createPaystackRest upload db opportunity user req newId (some e)
        else (Resp.mk 400 "You have already applied" none, db)
      | none => createPaystackRest upload db opportunity user req newId none

/-- The new document built by the STK-flow creation route. -/
def mpesaNewApp (upload : String → String → String) (user : UserT)
    (req : CreateRequest) (newId resumeBuf : String) : Application :=
  { id := newId, userId := user.id,
    opportunityId := req.opportunityId,
    resumeUrl := upload resumeBuf "internship-platform/resumes",
    recommendationLetterUrl := req.recommendationLetter.map
      (fun b => upload b "internship-platform/recommendations"),
    coverLetter := jsOr req.coverLetter none,
    status := AppStatus.pending_payment,
    amountPaid := none, paymentTransactionId := none,
    mpesaCheckoutRequestId := none,
    mpesaTransactionId := none }

/-- Tail of the STK-flow creation route, after the opportunity and duplicate
checks: file validation, uploads, unconditional create, and the optional
STK push. -/
def createMpesaRest (upload : String → String → String)
    (db : List Application) (opportunity : Opportunity) (user : UserT)
    (req : CreateRequest) (newId stkId : String) : Resp × List Application :=
  match req.resume with
  | none => (Resp.mk 400 "Resume is required" none, db)
  | some resumeBuf =>
    if decide (opportunity.type = "attachment") && req.recommendationLetter.isNone then
      (Resp.mk 400 "Recommendation letter is required for attachments" none, db)
    else
      match req.phoneNumber with
      | none =>
        (Resp.mk 200 "Application saved. Provide phone number to complete payment via M-Pesa."
          (some (stkCreateAmount opportunity)),
         db ++ [mpesaNewApp upload user req newId resumeBuf])
      | some _ =>
        (Resp.mk 200 "Enter your M-Pesa PIN on your phone to complete payment." none,
         db ++ [{ mpesaNewApp upload user req newId resumeBuf with
                  mpesaCheckoutRequestId := some stkId }])

/-- Application creation in the STK-flow router (`router.post('/')`): the
same validation order, but a new document is always created — an existing
`pending_payment` application is not reused.  `stkId` is the
`CheckoutRequestID` returned by `initiateSTKPush`. -/
def createApplicationMpesa (upload : String → String → String)
    (db : List Application) (opps : List Opportunity) (user : UserT)
    (req : CreateRequest) (newId stkId : String) : Resp × List Application :=
  match opps.find? (fun o => decide (o.id = req.opportunityId)) with
  | none => (Resp.mk 404 "Opportunity not found" none, db)
  | some opportunity =>
    if opportunity.isActive = false then (Resp.mk 400 "Opportunity is closed" none, db)
    else
      match db.find? (pairPred user.id req.opportunityId) with
      | some e =>
        if e.status = AppStatus.pending_payment then
          createMpesaRest upload db opportunity user req newId stkId
        else (Resp.mk 400 "You have already applied" none, db)
      | none => createMpesaRest upload db opportunity user req newId stkId

/-- The STK-flow pay route (`router.post('/:id/pay')`): re-initiate an STK
push for an own `pending_payment` application, overwriting the stored
`mpesaCheckoutRequestId` with the new `CheckoutRequestID`. -/
def payMpesaRoute (db : List Application) (user : UserT) (appId : String)
    (phone? : Option String) (stkId : String) : Resp × List Application :=
  match phone? with
  | none => (Resp.mk 400 "Phone number is required" none, db)
  | some _ =>
    match db.find? (fun a => decide (a.id = appId) && decide (a.userId = user.id) &&
        decide (a.status = AppStatus.pending_payment)) with
    | none => (Resp.mk 404 "Application not found" none, db)
    | some _ =>
      (Resp.mk 200 "Enter your M-Pesa PIN on your phone to complete payment." none,
       updateFirst (fun a => decide (a.id = appId) && decide (a.userId = user.id) &&
           decide (a.status = AppStatus.pending_payment))
         (fun a => { a with mpesaCheckoutRequestId := some stkId }) db)

/-- The owner update route (`router.patch('/:id')`): while the application
is `pending_payment` or `submitted`, only the `coverLetter` body field is
read and applied; the body is modelled as a key-value list. -/
def patchApplicationRoute (db : List Application) (userId appId : String)
    (body : List (String × String)) : Resp × List Application :=
  match db.find? (fun a => decide (a.id = appId) && decide (a.userId = userId)) with
  | none => (Resp.mk 404 "Application not found" none, db)
  | some app =>
    if app.status = AppStatus.pending_payment ∨ app.status = AppStatus.submitted then
      (Resp.mk 200 "" none,
       updateFirst (fun a => decide (a.id = appId) && decide (a.userId = userId))
         (fun a =>
           match (body.find? (fun kv => decide (kv.1 = "coverLetter"))).map (fun kv => kv.2) with
           | some c => { a with coverLetter := some c }
           | none => a) db)
    else (Resp.mk 400 "Application can no longer be updated" none, db)

/-- At most one application per (user, opportunity) pair. -/
def atMostOnePerPair (db : List Application) : Prop :=
  db.Pairwise (fun a b => ¬(a.userId = b.userId ∧ a.opportunityId = b.opportunityId))

/-- The document transformation the webhook handler saves on the success
path, as a function of the payload fields. -/
def settleSuccess (d : ChargeData) (ref : String) : Application → Application :=
  fun a =>
    { a with
      status := AppStatus.submitted
      paymentTransactionId := some (match d.id with
        | some n => toString n
        | none => ref)
      amountPaid := match d.amount with
        | some q => some (centsToUnits q)
        | none => a.amountPaid }

/-! Concrete fixtures used by witnesses and counterexamples. -/

/-- A `pending_payment` application for user `u1` and opportunity `o1`. -/
def exApp : Application :=
  { id := "abc", userId := "u1", opportunityId := "o1", resumeUrl := "r",
    recommendationLetterUrl := none, coverLetter := none,
    status := AppStatus.pending_payment, amountPaid := none,
    paymentTransactionId := none, mpesaCheckoutRequestId := none,
    mpesaTransactionId := none }

/-- An unrelated application with a different id. -/
def exOther : Application := { exApp with id := "zzz", opportunityId := "o2" }

/-- An application in the terminal `accepted` status. -/
def exAccepted : Application := { exApp with id := "acc", status := AppStatus.accepted }

/-- An application already `submitted` for the (u1, o1) pair. -/
def exSubmitted : Application := { exApp with status := AppStatus.submitted }

/-- The application of `exApp` with an outstanding STK push. -/
def exAppChk : Application := { exApp with mpesaCheckoutRequestId := some "chk1" }

/-- Webhook data carrying the bare reference for `exApp`. -/
def exD : ChargeData := { reference := some "APP-abc", id := none, amount := none }

/-- A verified `charge.success` body for `exApp`. -/
def exBody : WebhookBody := { event := some "charge.success", data := some exD }

/-- Webhook data with a reference that lacks the APP- marker. -/
def exDBad : ChargeData := { reference := some "XPP-abc", id := none, amount := none }

/-- A `charge.success` body whose reference lacks the APP- marker. -/
def exBodyBad : WebhookBody := { event := some "charge.success", data := some exDBad }

/-- Webhook data carrying a superseded timestamped reference for `exApp`. -/
def exDOld : ChargeData := { reference := some "APP-abc-111", id := none, amount := none }

/-- A `charge.success` body carrying the superseded reference. -/
def exBodyOld : WebhookBody := { event := some "charge.success", data := some exDOld }

/-- An active opportunity with no explicit applicationFee. -/
def exOpp : Opportunity :=
  { id := "o1", isActive := true, type := "internship", applicationFee := none, title := "T" }

/-- The requesting user. -/
def exUser : UserT := { id := "u1", email := "e", name := "n" }

/-- A creation request with a resume and no phone number. -/
def exReq : CreateRequest :=
  { opportunityId := "o1", coverLetter := none, phoneNumber := none,
    resume := some "buf", recommendationLetter := none }

/-- A stand-in for uploadToCloudinary. -/
def exUpload : String → String → String := fun _ folder => folder

/-- A failed STK callback for the outstanding request `chk1`. -/
def exStk : StkCallback :=
  { checkoutRequestID := some "chk1", resultCode := 1, receipt := none, amount := none }

/-- An STK callback for a checkout id no application carries. -/
def exStkNew : StkCallback :=
  { checkoutRequestID := some "chk-new", resultCode := 0, receipt := none, amount := none }

/-- A failed STK callback whose body omits CheckoutRequestID. -/
def exStkNoId : StkCallback :=
  { checkoutRequestID := none, resultCode := 1, receipt := none, amount := none }

/-- A patch body with a cover letter and an extra field. -/
def exPatchBody : List (String × String) := [("coverLetter", "hi"), ("status", "accepted")]

/-- A patch body with only the cover letter. -/
def exPatchBodyB : List (String × String) := [("coverLetter", "hi")]

/-! Helper lemmas about the store operations and reference parsing. -/

theorem length_updateFirst (p : α → Bool) (f : α → α) (l : List α) :
    (updateFirst p f l).length = l.length := by
  induction l with
  | nil => rfl
  | cons x xs ih =>
    by_cases hx : p x
    · simp [updateFirst, hx]
    · simp [updateFirst, hx, ih]

theorem mem_updateFirst {p : α → Bool} {f : α → α} {l : List α} {a' : α}
    (h : a' ∈ updateFirst p f l) :
    a' ∈ l ∨ ∃ a, l.find? p = some a ∧ a' = f a := by
  induction l with
  | nil => simp [updateFirst] at h
  | cons x xs ih =>
    by_cases hx : p x
    · rw [updateFirst, if_pos hx] at h
      rcases List.mem_cons.mp h with h1 | h1
      · exact Or.inr ⟨x, List.find?_cons_of_pos _ hx, h1⟩
      · exact Or.inl (List.mem_cons_of_mem _ h1)
    · rw [updateFirst, if_neg hx] at h
      rcases List.mem_cons.mp h with h1 | h1
      · exact Or.inl (h1 ▸ List.mem_cons_self _ _)
      · rcases ih h1 with h2 | ⟨a, ha, h3⟩
        · exact Or.inl (List.mem_cons_of_mem _ h2)
        · exact Or.inr ⟨a, by rw [List.find?_cons_of_neg _ hx]; exact ha, h3⟩

theorem mem_updateFirst_of_neg {p : α → Bool} {f : α → α} {l : List α} {a : α}
    (ha : a ∈ l) (hpa : p a = false) : a ∈ updateFirst p f l := by
  induction l with
  | nil => simp at ha
  | cons x xs ih =>
    by_cases hx : p x
    · rw [updateFirst, if_pos hx]
      rcases List.mem_cons.mp ha with h1 | h1
      · rw [← h1, hpa] at hx; exact absurd hx (by simp)
      · exact List.mem_cons_of_mem _ h1
    · rw [updateFirst, if_neg hx]
      rcases List.mem_cons.mp ha with h1 | h1
      · exact h1 ▸ List.mem_cons_self _ _
      · exact List.mem_cons_of_mem _ (ih h1)

theorem find?_updateFirst {p : α → Bool} {f : α → α}
    (hf : ∀ a, p (f a) = p a) (l : List α) :
    (updateFirst p f l).find? p = (l.find? p).map f := by
  induction l with
  | nil => rfl
  | cons x xs ih =>
    by_cases hx : p x
    · rw [updateFirst, if_pos hx, List.find?_cons_of_pos _ (by rw [hf]; exact hx),
        List.find?_cons_of_pos _ hx]
      rfl
    · rw [updateFirst, if_neg hx, List.find?_cons_of_neg _ hx,
        List.find?_cons_of_neg _ hx, ih]

theorem takeWhile_append_of_all {p : Char → Bool} {l1 : List Char}
    (h : ∀ c ∈ l1, p c = true) {c : Char} (hc : p c = false) (l2 : List Char) :
    (l1 ++ c :: l2).takeWhile p = l1 := by
  induction l1 with
  | nil => simp [List.takeWhile_cons, hc]
  | cons x xs ih =>
    have hx : p x = true := h x (List.mem_cons_self _ _)
    rw [List.cons_append, List.takeWhile_cons_of_pos hx,
      ih (fun d hd => h d (List.mem_cons_of_mem _ hd))]

theorem stripDisamb_append {id ds : List Char} (hne : ds ≠ [])
    (hall : ∀ c ∈ ds, c.isDigit = true) :
    stripDisamb (id ++ '-' :: ds) = id := by
  have hdash : Char.isDigit '-' = false := rfl
  have hrev : (id ++ '-' :: ds).reverse = ds.reverse ++ '-' :: id.reverse := by
    rw [List.reverse_append, List.reverse_cons, List.append_assoc, List.singleton_append]
  have hall' : ∀ c ∈ ds.reverse, Char.isDigit c = true := by
    intro c hcm; exact hall c (List.mem_reverse.mp hcm)
  have htake : (ds.reverse ++ '-' :: id.reverse).takeWhile Char.isDigit = ds.reverse :=
    takeWhile_append_of_all hall' hdash _
  have hdrop : (ds.reverse ++ '-' :: id.reverse).drop ds.reverse.length = '-' :: id.reverse :=
    List.drop_left _ _
  unfold stripDisamb
  rw [hrev, htake, hdrop]
  have hcond : ds.reverse ≠ [] ∧ ('-' :: id.reverse).head? = some '-' :=
    ⟨by simpa using hne, rfl⟩
  rw [if_pos hcond, List.tail_cons, List.reverse_reverse]

theorem stripDisamb_no_hyphen {l : List Char} (h : '-' ∉ l) : stripDisamb l = l := by
  unfold stripDisamb
  rw [if_neg]
  rintro ⟨-, hh⟩
  have hmem : '-' ∈ l.reverse.drop (l.reverse.takeWhile Char.isDigit).length := by
    cases hrt : l.reverse.drop (l.reverse.takeWhile Char.isDigit).length with
    | nil => rw [hrt] at hh; simp at hh
    | cons c t =>
      rw [hrt] at hh
      simp only [List.head?_cons, Option.some.injEq] at hh
      rw [hh]
      exact List.mem_cons_self _ _
  exact h (List.mem_reverse.mp (List.drop_subset _ _ hmem))

theorem take4_cons (t : List Char) :
    ('A' :: 'P' :: 'P' :: '-' :: t).take 4 = ['A', 'P', 'P', '-'] := rfl

theorem drop4_cons (t : List Char) : ('A' :: 'P' :: 'P' :: '-' :: t).drop 4 = t := rfl

theorem parseReference_bare {id : String} (h : '-' ∉ id.toList) :
    parseReference ("APP-" ++ id) = some id := by
  have hdata : ("APP-" ++ id).toList = 'A' :: 'P' :: 'P' :: '-' :: id.toList := by
    show ("APP-" ++ id).data = _
    rw [String.data_append]; rfl
  unfold parseReference
  rw [hdata, take4_cons, drop4_cons, if_pos rfl, stripDisamb_no_hyphen h,
    String.asString_toList]

theorem parseReference_suffixed (id : String) {ds : List Char} (hne : ds ≠ [])
    (hall : ∀ c ∈ ds, c.isDigit = true) :
    parseReference ("APP-" ++ id ++ "-" ++ ds.asString) = some id := by
  have hdata : ("APP-" ++ id ++ "-" ++ ds.asString).toList
      = 'A' :: 'P' :: 'P' :: '-' :: (id.toList ++ '-' :: ds) := by
    show ("APP-" ++ id ++ "-" ++ ds.asString).data = _
    rw [String.data_append, String.data_append, String.data_append]
    show ('A' :: 'P' :: 'P' :: '-' :: id.data) ++ ['-'] ++ ds.asString.data = _
    have hds : ds.asString.data = ds := rfl
    rw [hds]
    simp
  unfold parseReference
  rw [hdata, take4_cons, drop4_cons, if_pos rfl, stripDisamb_append hne hall,
    String.asString_toList]

theorem atMostOnePerPair_updateFirst {p : Application → Bool}
    {f : Application → Application}
    (hf : ∀ a, (f a).userId = a.userId ∧ (f a).opportunityId = a.opportunityId)
    {db : List Application} (h : atMostOnePerPair db) :
    atMostOnePerPair (updateFirst p f db) := by
  induction db with
  | nil => exact h
  | cons x xs ih =>
    rw [atMostOnePerPair, List.pairwise_cons] at h
    by_cases hx : p x
    · rw [updateFirst, if_pos hx, atMostOnePerPair, List.pairwise_cons]
      refine ⟨fun b hb hcontra => h.1 b hb ?_, h.2⟩
      exact ⟨((hf x).1).symm.trans hcontra.1, ((hf x).2).symm.trans hcontra.2⟩
    · rw [updateFirst, if_neg hx, atMostOnePerPair, List.pairwise_cons]
      refine ⟨fun b hb hcontra => ?_, ih h.2⟩
      rcases mem_updateFirst hb with h1 | ⟨a, ha, h2⟩
      · exact h.1 b h1 hcontra
      · have ham : a ∈ xs := List.mem_of_find?_eq_some ha
        rw [h2] at hcontra
        exact h.1 a ham ⟨hcontra.1.trans (hf a).1, hcontra.2.trans (hf a).2⟩

theorem atMostOnePerPair_append_singleton {db : List Application} {n : Application}
    (h : atMostOnePerPair db)
    (hn : ∀ a ∈ db, ¬(a.userId = n.userId ∧ a.opportunityId = n.opportunityId)) :
    atMostOnePerPair (db ++ [n]) := by
  rw [atMostOnePerPair, List.pairwise_append]
  refine ⟨h, List.pairwise_singleton _ _, fun a ha b hb => ?_⟩
  rw [List.mem_singleton] at hb
  rw [hb]
  exact hn a ha

theorem settleSuccess_id (d : ChargeData) (ref : String) (a : Application) :
    (settleSuccess d ref a).id = a.id := rfl

theorem paystackWebhookHandler_success (db : List Application) (body : WebhookBody)
    (d : ChargeData) (ref appId : String) (app : Application)
    (hev : body.event = some "charge.success") (hd : body.data = some d)
    (href : d.reference = some ref) (hparse : parseReference ref = some appId)
    (hfind : db.find? (fun a => decide (a.id = appId)) = some app)
    (hpend : app.status = AppStatus.pending_payment) :
    paystackWebhookHandler db (some body) =
      updateFirst (fun a => decide (a.id = appId)) (settleSuccess d ref) db := by
  obtain ⟨ev?, d?⟩ := body
  simp only at hev hd
  subst hev hd
  simp only [paystackWebhookHandler, href, hparse, hfind, hpend, if_pos, if_true, reduceIte]
  rfl

theorem paystackWebhookHandler_eq_or_success (db : List Application)
    (body? : Option WebhookBody) :
    paystackWebhookHandler db body? = db ∨
    ∃ body d ref appId app,
      body? = some body ∧ body.event = some "charge.success" ∧ body.data = some d ∧
      d.reference = some ref ∧ parseReference ref = some appId ∧
      db.find? (fun a => decide (a.id = appId)) = some app ∧
      app.status = AppStatus.pending_payment ∧
      paystackWebhookHandler db body? =
        updateFirst (fun a => decide (a.id = appId)) (settleSuccess d ref) db := by
  rcases body? with _ | body
  · exact Or.inl rfl
  obtain ⟨ev?, d?⟩ := body
  rcases ev? with _ | ev
  · exact Or.inl rfl
  rcases d? with _ | d
  · exact Or.inl rfl
  by_cases hev : ev = "charge.success"
  · subst hev
    rcases href : d.reference with _ | ref
    · exact Or.inl (by simp only [paystackWebhookHandler, href, ite_self])
    rcases hparse : parseReference ref with _ | appId
    · exact Or.inl (by simp only [paystackWebhookHandler, href, hparse, if_true, reduceIte])
    rcases hfind : db.find? (fun a => decide (a.id = appId)) with _ | app
    · exact Or.inl (by simp only [paystackWebhookHandler, href, hparse, hfind, if_true,
        reduceIte])
    by_cases hpend : app.status = AppStatus.pending_payment
    · refine Or.inr ⟨⟨some "charge.success", some d⟩, d, ref, appId, app, rfl, rfl, rfl,
        href, hparse, hfind, hpend, ?_⟩
      exact paystackWebhookHandler_success _ _ _ _ _ _ rfl rfl href hparse hfind hpend
    · exact Or.inl (by simp only [paystackWebhookHandler, href, hparse, hfind, hpend,
        if_true, if_false, reduceIte])
  · exact Or.inl (by simp only [paystackWebhookHandler, hev, if_false, reduceIte])

theorem parseReference_none {ref : String}
    (h : ref.toList.take 4 ≠ ['A', 'P', 'P', '-']) : parseReference ref = none := by
  unfold parseReference
  rw [if_neg h]

/-! Claim theorems. -/

/-- C1: a webhook delivery whose signature header does not verify as the
HMAC of the raw payload bytes under the configured secret mutates no
application record — the endpoint stops before the handler runs, so the
store (and with it every status, amountPaid and transaction-id field) is
returned unchanged. -/
theorem C1_invalid_signature_mutates_nothing
    (hmacSha512Hex : String → String → String) (s : String)
    (parseJson : String → Option WebhookBody) (db : List Application)
    (rawBody sigHeader : String) (h : hmacSha512Hex s rawBody ≠ sigHeader) :
    paystackWebhookRoute hmacSha512Hex (some s) parseJson db rawBody sigHeader = db := by
  unfold paystackWebhookRoute verifyWebhookSignature
  simp [h]

/-- Witness for C1: a concrete HMAC stand-in, secret, store and mismatched
signature header. -/
theorem C1_witness :
    (fun k p => k ++ p) "secret" "rawbody" ≠ "bad" ∧
    paystackWebhookRoute (fun k p => k ++ p) (some "secret")
      (fun _ => some exBody) [exApp] "rawbody" "bad" = [exApp] :=
  ⟨by decide,
   C1_invalid_signature_mutates_nothing (fun k p => k ++ p) "secret"
     (fun _ => some exBody) [exApp] "rawbody" "bad" (by decide)⟩

/-- C6: a reference APP-&lt;id&gt; (id free of hyphens) or APP-&lt;id&gt;-&lt;digits&gt;
parses to exactly &lt;id&gt;; a reference not starting with APP- stops the
handler with the store unchanged; and the handler never touches an
application whose id differs from the parsed one. -/
theorem C6_reference_correlation :
    (∀ id : String, '-' ∉ id.toList → parseReference ("APP-" ++ id) = some id) ∧
    (∀ (id : String) (ds : List Char), ds ≠ [] → (∀ c ∈ ds, c.isDigit = true) →
      parseReference ("APP-" ++ id ++ "-" ++ ds.asString) = some id) ∧
    (∀ (db : List Application) (body : WebhookBody) (d : ChargeData) (ref : String),
      body.data = some d → d.reference = some ref →
      ref.toList.take 4 ≠ ['A', 'P', 'P', '-'] →
      paystackWebhookHandler db (some body) = db) ∧
    (∀ (db : List Application) (body : WebhookBody) (d : ChargeData) (ref appId : String),
      body.data = some d → d.reference = some ref → parseReference ref = some appId →
      ∀ a ∈ db, a.id ≠ appId → a ∈ paystackWebhookHandler db (some body)) := by
  refine ⟨fun id h => parseReference_bare h,
    fun id ds hne hall => parseReference_suffixed id hne hall, ?_, ?_⟩
  · intro db body d ref hd href htake
    rcases paystackWebhookHandler_eq_or_success db (some body) with heq |
      ⟨body2, d2, ref2, appId2, app2, hb2, _, hd2, href2, hparse2, _, _, _⟩
    · exact heq
    · exfalso
      obtain rfl : body2 = body := (Option.some.inj hb2).symm
      rw [hd] at hd2
      obtain rfl : d2 = d := (Option.some.inj hd2).symm
      rw [href] at href2
      obtain rfl : ref2 = ref := (Option.some.inj href2).symm
      rw [parseReference_none htake] at hparse2
      exact Option.noConfusion hparse2
  · intro db body d ref appId hd href hparse a ha hne
    rcases paystackWebhookHandler_eq_or_success db (some body) with heq |
      ⟨body2, d2, ref2, appId2, app2, hb2, _, hd2, href2, hparse2, _, _, heq⟩
    · rw [heq]; exact ha
    · obtain rfl : body2 = body := (Option.some.inj hb2).symm
      rw [hd] at hd2
      obtain rfl : d2 = d := (Option.some.inj hd2).symm
      rw [href] at href2
      obtain rfl : ref2 = ref := (Option.some.inj href2).symm
      rw [hparse] at hparse2
      obtain rfl : appId2 = appId := (Option.some.inj hparse2).symm
      rw [heq]
      exact mem_updateFirst_of_neg ha (by simp [hne])

/-- Witness for C6: both reference forms for id abc, a non-APP reference
leaving a concrete store unchanged, and an unrelated application surviving
a settling delivery. -/
theorem C6_witness :
    parseReference ("APP-" ++ "abc") = some "abc" ∧
    parseReference ("APP-" ++ "abc" ++ "-" ++ ['1', '2', '3'].asString) = some "abc" ∧
    paystackWebhookHandler [exApp] (some exBodyBad) = [exApp] ∧
    exOther ∈ paystackWebhookHandler [exOther, exApp] (some exBody) := by
  refine ⟨C6_reference_correlation.1 "abc" (by decide),
    C6_reference_correlation.2.1 "abc" ['1', '2', '3'] (by decide) (by decide),
    C6_reference_correlation.2.2.1 [exApp] exBodyBad exDBad "XPP-abc" rfl rfl (by decide),
    C6_reference_correlation.2.2.2 [exOther, exApp] exBody exD "APP-abc" "abc" rfl rfl
      (by decide) exOther (by simp) (by decide)⟩

/-- C8: the redirect-provider adapter converts whole units to subunits as
round(amount * 100) and the webhook converts back as amount / 100, so every
integer whole-unit amount round-trips exactly. -/
theorem C8_amount_roundtrip (n : ℤ) :
    centsToUnits ((amountInSmallest (n : ℚ) : ℤ) : ℚ) = (n : ℚ) := by
  unfold amountInSmallest centsToUnits
  have h : ((n : ℚ) * 100) = ((n * 100 : ℤ) : ℚ) := by push_cast; ring
  rw [h, round_intCast]
  push_cast
  ring_nf

/-- C2: delivering the same verified charge.success payload twice to an
application initially in pending_payment settles it exactly once: the first
delivery moves it to submitted, and the second delivery finds it no longer
pending and returns the store unchanged, so there is exactly one submitted
transition and one amountPaid write. -/
theorem C2_webhook_idempotent (db : List Application) (body : WebhookBody)
    (d : ChargeData) (ref appId : String) (app : Application)
    (hev : body.event = some "charge.success") (hd : body.data = some d)
    (href : d.reference = some ref) (hparse : parseReference ref = some appId)
    (hfind : db.find? (fun a => decide (a.id = appId)) = some app)
    (hpend : app.status = AppStatus.pending_payment) :
    statusOf (paystackWebhookHandler db (some body)) appId = some AppStatus.submitted ∧
    paystackWebhookHandler (paystackWebhookHandler db (some body)) (some body) =
      paystackWebhookHandler db (some body) := by
  have h1 := paystackWebhookHandler_success db body d ref appId app hev hd href hparse
    hfind hpend
  have hfpred : ∀ a : Application,
      (fun a => decide (a.id = appId)) (settleSuccess d ref a) =
      (fun a => decide (a.id = appId)) a := by
    intro a
    simp [settleSuccess_id]
  have hfind1 : (paystackWebhookHandler db (some body)).find?
      (fun a => decide (a.id = appId)) = some (settleSuccess d ref app) := by
    rw [h1, find?_updateFirst hfpred, hfind]
    rfl
  constructor
  · unfold statusOf
    rw [hfind1]
    rfl
  · obtain ⟨ev?, d?⟩ := body
    simp only at hev hd
    subst hev hd
    generalize hgen : paystackWebhookHandler db
      (some (WebhookBody.mk (some "charge.success") (some d))) = db1 at hfind1 ⊢
    simp only [paystackWebhookHandler, href, hparse, hfind1, if_true, reduceIte]
    rw [if_neg (show ¬(settleSuccess d ref app).status = AppStatus.pending_payment by
      intro hcc
      exact AppStatus.noConfusion hcc)]

/-- Witness for C2: the concrete pending application and a concrete
verified charge.success payload, delivered twice. -/
theorem C2_witness :
    statusOf (paystackWebhookHandler [exApp] (some exBody)) "abc" = some AppStatus.submitted ∧
    paystackWebhookHandler (paystackWebhookHandler [exApp] (some exBody)) (some exBody) =
      paystackWebhookHandler [exApp] (some exBody) :=
  C2_webhook_idempotent [exApp] exBody exD "APP-abc" "abc" exApp rfl rfl rfl
    (by decide) (by decide) rfl

/-- C10: a charge.success payload that omits the amount field still moves a
pending_payment application to submitted and sets paymentTransactionId to
the provider transaction id (falling back to the reference string when the
id is absent) while leaving amountPaid unchanged. -/
theorem C10_missing_amount (db : List Application) (body : WebhookBody)
    (d : ChargeData) (ref appId : String) (app : Application)
    (hev : body.event = some "charge.success") (hd : body.data = some d)
    (href : d.reference = some ref) (hparse : parseReference ref = some appId)
    (hamt : d.amount = none)
    (hfind : db.find? (fun a => decide (a.id = appId)) = some app)
    (hpend : app.status = AppStatus.pending_payment) :
    statusOf (paystackWebhookHandler db (some body)) appId = some AppStatus.submitted ∧
    (paystackWebhookHandler db (some body)).find? (fun a => decide (a.id = appId)) =
      some { app with
             status := AppStatus.submitted
             paymentTransactionId := some (match d.id with
               | some n => toString n
               | none => ref) } := by
  have h1 := paystackWebhookHandler_success db body d ref appId app hev hd href hparse
    hfind hpend
  have hfpred : ∀ a : Application,
      (fun a => decide (a.id = appId)) (settleSuccess d ref a) =
      (fun a => decide (a.id = appId)) a := by
    intro a
    simp [settleSuccess_id]
  have hfind1 : (paystackWebhookHandler db (some body)).find?
      (fun a => decide (a.id = appId)) = some (settleSuccess d ref app) := by
    rw [h1, find?_updateFirst hfpred, hfind]
    rfl
  refine ⟨?_, ?_⟩
  · unfold statusOf
    rw [hfind1]
    rfl
  · rw [hfind1]
    simp only [settleSuccess, hamt]

/-- Witness for C10: the concrete payload with no amount and no provider
id, exercising the reference fallback. -/
theorem C10_witness :
    statusOf (paystackWebhookHandler [exApp] (some exBody)) "abc" = some AppStatus.submitted ∧
    (paystackWebhookHandler [exApp] (some exBody)).find? (fun a => decide (a.id = "abc")) =
      some { exApp with
             status := AppStatus.submitted
             paymentTransactionId := some "APP-abc" } :=
  C10_missing_amount [exApp] exBody exD "APP-abc" "abc" exApp rfl rfl rfl
    (by decide) rfl (by decide) rfl

/-- C3 is refuted as stated: the admin status endpoint writes any allowed
status unconditionally, so it moves an accepted application back to
submitted (a regression) and moves a pending_payment application straight
to under_review (skipping submitted). -/
theorem C3_counterexample :
    statusOf [exAccepted] "acc" = some AppStatus.accepted ∧
    statusOf (adminUpdateStatus [exAccepted] "acc" (some "submitted")).2 "acc" =
      some AppStatus.submitted ∧
    rank AppStatus.submitted < rank AppStatus.accepted ∧
    statusOf [exApp] "abc" = some AppStatus.pending_payment ∧
    statusOf (adminUpdateStatus [exApp] "abc" (some "under_review")).2 "abc" =
      some AppStatus.under_review ∧
    statusOf [exSubmitted] "abc" = some AppStatus.submitted ∧
    statusOf (mpesaCallback [exSubmitted] (some exStkNoId)) "abc" =
      some AppStatus.pending_payment := by
  refine ⟨?_, ?_, ?_, ?_, ?_, ?_, ?_⟩ <;> decide

/-- C3 (amended): the payment callbacks never move status backward and
never skip submitted — each application either keeps its status or moves
pending_payment to submitted — provided every application holding an
outstanding mpesaCheckoutRequestId is pending_payment and the M-Pesa
delivery carries a CheckoutRequestID.  A delivery without one makes the
route query findOne with an undefined filter value, which matches the
store's first application and can regress it; and the admin status
endpoint can set any allowed status, including backward moves and moves
that skip submitted. -/
theorem C3_callbacks_never_regress (db : List Application) (cb : StkCallback)
    (c : String) (body? : Option WebhookBody)
    (hcid : cb.checkoutRequestID = some c)
    (hinv : ∀ a ∈ db, a.mpesaCheckoutRequestId ≠ none →
      a.status = AppStatus.pending_payment) :
    (∀ a2 ∈ mpesaCallback db (some cb), ∃ a ∈ db, a2.id = a.id ∧
      (a2.status = a.status ∨
        (a.status = AppStatus.pending_payment ∧ a2.status = AppStatus.submitted))) ∧
    (∀ a2 ∈ paystackWebhookHandler db body?, ∃ a ∈ db, a2.id = a.id ∧
      (a2.status = a.status ∨
        (a.status = AppStatus.pending_payment ∧ a2.status = AppStatus.submitted))) := by
  constructor
  · intro a2 ha2
    rcases hfind : db.find?
        (fun a => decide (a.mpesaCheckoutRequestId = some c)) with _ | app
    · simp only [mpesaCallback, hcid, hfind] at ha2
      exact ⟨a2, ha2, rfl, Or.inl rfl⟩
    simp only [mpesaCallback, hcid, hfind] at ha2
    rcases mem_updateFirst ha2 with h1 | ⟨a, ha, h2⟩
    · exact ⟨a2, h1, rfl, Or.inl rfl⟩
    · have ham : a ∈ db := List.mem_of_find?_eq_some ha
      have hpa : a.mpesaCheckoutRequestId = some c := by
        have := (List.find?_eq_some.mp ha).1
        simpa using this
      have hpend : a.status = AppStatus.pending_payment :=
        hinv a ham (by rw [hpa]; simp)
      by_cases hrc : cb.resultCode = 0
      · exact ⟨a, ham, by simp [h2, mpesaSettle, hrc],
          Or.inr ⟨hpend, by simp [h2, mpesaSettle, hrc]⟩⟩
      · exact ⟨a, ham, by simp [h2, mpesaSettle, hrc],
          Or.inl (by simp [h2, mpesaSettle, hrc, hpend])⟩
  · intro a2 ha2
    rcases paystackWebhookHandler_eq_or_success db body? with heq |
      ⟨body, d, ref, appId, app, hb, hev, hd, href, hparse, hfind, hpend, heq⟩
    · rw [heq] at ha2
      exact ⟨a2, ha2, rfl, Or.inl rfl⟩
    · rw [heq] at ha2
      rcases mem_updateFirst ha2 with h1 | ⟨a, ha, h2⟩
      · exact ⟨a2, h1, rfl, Or.inl rfl⟩
      · have ham : a ∈ db := List.mem_of_find?_eq_some ha
        rw [ha] at hfind
        obtain rfl : a = app := Option.some.inj hfind
        exact ⟨a, ham, by rw [h2]; rfl, Or.inr ⟨hpend, by rw [h2]; rfl⟩⟩

/-- Witness for C3 (amended) at a concrete store holding one pending
application with an outstanding STK push, a failed callback carrying its
CheckoutRequestID, and a settling Paystack delivery. -/
theorem C3_witness :
    (∀ a2 ∈ mpesaCallback [exAppChk] (some exStk), ∃ a ∈ [exAppChk], a2.id = a.id ∧
      (a2.status = a.status ∨
        (a.status = AppStatus.pending_payment ∧ a2.status = AppStatus.submitted))) ∧
    (∀ a2 ∈ paystackWebhookHandler [exAppChk] (some exBody), ∃ a ∈ [exAppChk],
      a2.id = a.id ∧
      (a2.status = a.status ∨
        (a.status = AppStatus.pending_payment ∧ a2.status = AppStatus.submitted))) :=
  C3_callbacks_never_regress [exAppChk] exStk "chk1" (some exBody) rfl (by decide)

/-- C7 is refuted as stated: for an opportunity with no explicit
applicationFee, the STK-flow creation route initiates with amount 500, not
350. -/
theorem C7_counterexample :
    exOpp.applicationFee = none ∧
    stkCreateAmount exOpp = 500 ∧
    stkCreateAmount exOpp ≠ 350 := by
  refine ⟨rfl, rfl, ?_⟩
  decide

/-- C7 (amended): when the opportunity carries no explicit applicationFee,
the Paystack-flow initiations (creation/re-pay via getPaymentLink, and the
charge-mpesa route) carry amount 350, while the direct STK-flow initiations
(creation and re-pay) carry amount 500. -/
theorem C7_fee_defaults (o : Opportunity) (hfee : o.applicationFee = none) :
    getPaymentLinkAmount (some o) = 350 ∧
    chargeMpesaRouteAmount (some o) = 350 ∧
    stkCreateAmount o = 500 ∧
    stkPayAmount (some o) = 500 := by
  simp only [getPaymentLinkAmount, chargeMpesaRouteAmount, stkPayAmount, stkCreateAmount,
    hfee]
  exact ⟨trivial, trivial, trivial, trivial⟩

/-- Witness for C7 (amended) at the concrete fee-less opportunity. -/
theorem C7_witness :
    exOpp.applicationFee = none ∧
    getPaymentLinkAmount (some exOpp) = 350 ∧
    chargeMpesaRouteAmount (some exOpp) = 350 ∧
    stkCreateAmount exOpp = 500 ∧
    stkPayAmount (some exOpp) = 500 := by
  have h := C7_fee_defaults exOpp rfl
  exact ⟨rfl, h.1, h.2.1, h.2.2.1, h.2.2.2⟩

/-- C9: the owner update route, on an application in pending_payment or
submitted, changes at most the coverLetter field — every application in the
resulting store equals one in the old store up to coverLetter — and any
body field other than coverLetter is ignored: two bodies agreeing on the
coverLetter lookup produce identical responses and stores. -/
theorem C9_patch_only_cover_letter (db : List Application) (userId appId : String)
    (body bodyB : List (String × String)) (app : Application)
    (hfind : db.find? (fun a => decide (a.id = appId) && decide (a.userId = userId)) =
      some app)
    (hst : app.status = AppStatus.pending_payment ∨ app.status = AppStatus.submitted) :
    (∀ a2 ∈ (patchApplicationRoute db userId appId body).2,
      ∃ a ∈ db, a2 = { a with coverLetter := a2.coverLetter }) ∧
    ((body.find? (fun kv => decide (kv.1 = "coverLetter"))).map (fun kv => kv.2) =
        (bodyB.find? (fun kv => decide (kv.1 = "coverLetter"))).map (fun kv => kv.2) →
      patchApplicationRoute db userId appId body =
        patchApplicationRoute db userId appId bodyB) := by
  constructor
  · intro a2 ha2
    simp only [patchApplicationRoute, hfind, if_pos hst] at ha2
    rcases mem_updateFirst ha2 with h1 | ⟨a, ha, h2⟩
    · exact ⟨a2, h1, rfl⟩
    · have ham : a ∈ db := List.mem_of_find?_eq_some ha
      refine ⟨a, ham, ?_⟩
      rcases hcl : (body.find? (fun kv => decide (kv.1 = "coverLetter"))).map
          (fun kv => kv.2) with _ | c
      · rw [h2]
        simp only [hcl]
      · rw [h2]
        simp only [hcl]
  · intro hsame
    simp only [patchApplicationRoute, hfind, if_pos hst, hsame]

/-- Witness for C9: a concrete pending application patched with a body that
carries a cover letter and a stray status field, against the body without
the stray field. -/
theorem C9_witness :
    (∀ a2 ∈ (patchApplicationRoute [exApp] "u1" "abc" exPatchBody).2,
      ∃ a ∈ [exApp], a2 = { a with coverLetter := a2.coverLetter }) ∧
    patchApplicationRoute [exApp] "u1" "abc" exPatchBody =
      patchApplicationRoute [exApp] "u1" "abc" exPatchBodyB := by
  have h := C9_patch_only_cover_letter [exApp] "u1" "abc" exPatchBody exPatchBodyB exApp
    (by decide) (Or.inl rfl)
  exact ⟨h.1, h.2 (by decide)⟩

/-- C5 is refuted as stated: after re-initiation produces APP-abc-222, a
confirmation carrying the superseded reference APP-abc-111 is not ignored —
the handler strips the disambiguator, resolves the same application and
settles it. -/
theorem C5_counterexample :
    getPaymentLinkReference "abc" 111 = "APP-abc-111" ∧
    getPaymentLinkReference "abc" 222 = "APP-abc-222" ∧
    paystackWebhookHandler [exApp] (some exBodyOld) ≠ [exApp] ∧
    statusOf (paystackWebhookHandler [exApp] (some exBodyOld)) "abc" =
      some AppStatus.submitted := by
  refine ⟨?_, ?_, ?_, ?_⟩ <;> decide

/-- C5 (amended): Paystack re-initiation embeds the current Date.now()
value, so two attempts whose timestamps render differently get distinct
references; the STK-flow routes reuse the attempt-independent reference
APP-&lt;id&gt; and correlate by the overwritten CheckoutRequestID instead, a
callback carrying a superseded CheckoutRequestID being ignored; but a
Paystack confirmation carrying a superseded timestamped reference is
processed like a current one whenever the application is still
pending_payment. -/
theorem C5_reinitiation :
    (∀ (appId : String) (t1 t2 : Nat), toString t1 ≠ toString t2 →
      getPaymentLinkReference appId t1 ≠ getPaymentLinkReference appId t2) ∧
    (∀ appId : String, stkReference appId = "APP-" ++ appId) ∧
    (∀ (db : List Application) (cb : StkCallback) (c : String),
      cb.checkoutRequestID = some c →
      (∀ a ∈ db, a.mpesaCheckoutRequestId ≠ some c) →
      mpesaCallback db (some cb) = db) ∧
    (∀ (db : List Application) (body : WebhookBody) (d : ChargeData)
        (appId : String) (ds : List Char) (app : Application),
      body.event = some "charge.success" → body.data = some d →
      d.reference = some ("APP-" ++ appId ++ "-" ++ ds.asString) →
      ds ≠ [] → (∀ c ∈ ds, c.isDigit = true) →
      db.find? (fun a => decide (a.id = appId)) = some app →
      app.status = AppStatus.pending_payment →
      statusOf (paystackWebhookHandler db (some body)) appId =
        some AppStatus.submitted) := by
  refine ⟨?_, fun appId => rfl, ?_, ?_⟩
  · intro appId t1 t2 hts heq
    apply hts
    have hdata := congrArg String.data heq
    unfold getPaymentLinkReference at hdata
    rw [String.data_append, String.data_append] at hdata
    exact String.toList_inj.mp (List.append_cancel_left hdata)
  · intro db cb c hcid hnone
    have hfind : db.find?
        (fun a => decide (a.mpesaCheckoutRequestId = some c)) = none := by
      rw [List.find?_eq_none]
      intro a ha
      simp [hnone a ha]
    simp only [mpesaCallback, hcid, hfind]
  · intro db body d appId ds app hev hd href hne hall hfind hpend
    have hparse : parseReference ("APP-" ++ appId ++ "-" ++ ds.asString) = some appId :=
      parseReference_suffixed appId hne hall
    have h1 := paystackWebhookHandler_success db body d
      ("APP-" ++ appId ++ "-" ++ ds.asString) appId app hev hd href hparse hfind hpend
    have hfpred : ∀ a : Application,
        (fun a => decide (a.id = appId))
          (settleSuccess d ("APP-" ++ appId ++ "-" ++ ds.asString) a) =
        (fun a => decide (a.id = appId)) a := by
      intro a
      simp [settleSuccess_id]
    unfold statusOf
    rw [h1, find?_updateFirst hfpred, hfind]
    rfl

/-- Witness for C5 (amended): concrete distinct timestamps, the constant
STK reference, an ignored superseded CheckoutRequestID, and a processed
superseded Paystack reference. -/
theorem C5_witness :
    getPaymentLinkReference "abc" 111 ≠ getPaymentLinkReference "abc" 222 ∧
    stkReference "abc" = "APP-" ++ "abc" ∧
    mpesaCallback [exApp] (some exStkNew) = [exApp] ∧
    statusOf (paystackWebhookHandler [exApp] (some exBodyOld)) "abc" =
      some AppStatus.submitted :=
  ⟨C5_reinitiation.1 "abc" 111 222 (by decide),
   C5_reinitiation.2.1 "abc",
   C5_reinitiation.2.2.1 [exApp] exStkNew "chk-new" rfl (by decide),
   C5_reinitiation.2.2.2 [exApp] exBodyOld exDOld "abc" ['1', '1', '1'] exApp rfl rfl
     (by decide) (by decide) (by decide) (by decide) rfl⟩

/-- C4 is refuted as stated: the STK-flow creation route does not reuse an
existing pending_payment application — a second creation request for the
same (user, opportunity) pair leaves two pending applications for it. -/
theorem C4_counterexample :
    ((createApplicationMpesa exUpload [exApp] [exOpp] exUser exReq "a2" "stk").2).length = 2 ∧
    (∀ a ∈ (createApplicationMpesa exUpload [exApp] [exOpp] exUser exReq "a2" "stk").2,
      a.userId = "u1" ∧ a.opportunityId = "o1" ∧ a.status = AppStatus.pending_payment) ∧
    statusOf [exApp] "abc" = some AppStatus.pending_payment := by
  refine ⟨?_, ?_, ?_⟩ <;> decide

/-- C4 (amended): creation while an application for the pair exists in any
status other than pending_payment is rejected with 400 "You have already
applied" in both flows; the Paystack-flow route reuses an existing
pending_payment record (never growing the store when one exists) and
preserves at-most-one-application-per-pair; the STK-flow route instead
creates a second pending record in that situation. -/
theorem C4_duplicate_applications :
    (∀ upload db opps user req newId opp e,
      opps.find? (fun o => decide (o.id = req.opportunityId)) = some opp →
      opp.isActive = true →
      db.find? (pairPred user.id req.opportunityId) = some e →
      e.status ≠ AppStatus.pending_payment →
      createApplicationPaystack upload db opps user req newId =
        (Resp.mk 400 "You have already applied" none, db)) ∧
    (∀ upload db opps user req newId,
      (db.find? (pairPred user.id req.opportunityId)).isSome →
      ((createApplicationPaystack upload db opps user req newId).2).length = db.length) ∧
    (∀ upload db opps user req newId,
      atMostOnePerPair db →
      atMostOnePerPair (createApplicationPaystack upload db opps user req newId).2) ∧
    (∀ upload db opps user req newId stkId opp e,
      opps.find? (fun o => decide (o.id = req.opportunityId)) = some opp →
      opp.isActive = true →
      db.find? (pairPred user.id req.opportunityId) = some e →
      e.status ≠ AppStatus.pending_payment →
      createApplicationMpesa upload db opps user req newId stkId =
        (Resp.mk 400 "You have already applied" none, db)) := by
  refine ⟨?_, ?_, ?_, ?_⟩
  · intro upload db opps user req newId opp e hopp hact hfind hne
    simp [createApplicationPaystack, hopp, hact, hfind, hne]
  · intro upload db opps user req newId hsome
    rcases hopp : opps.find? (fun o => decide (o.id = req.opportunityId)) with _ | opp
    · simp [createApplicationPaystack, hopp]
    cases hIA : opp.isActive
    · simp [createApplicationPaystack, hopp, hIA]
    rcases hfind : db.find? (pairPred user.id req.opportunityId) with _ | e
    · rw [hfind] at hsome
      simp at hsome
    by_cases hst : e.status = AppStatus.pending_payment
    · rcases hres : req.resume with _ | buf
      · simp [createApplicationPaystack, createPaystackRest, hopp, hIA, hfind, hst, hres]
      by_cases hatt : (decide (opp.type = "attachment") && req.recommendationLetter.isNone)
          = true
      · simp [createApplicationPaystack, createPaystackRest, hopp, hIA, hfind, hst, hres,
          hatt]
      · simp [createApplicationPaystack, createPaystackRest, hopp, hIA, hfind, hst, hres,
          hatt, length_updateFirst]
    · simp [createApplicationPaystack, hopp, hIA, hfind, hst]
  · intro upload db opps user req newId hmo
    rcases hopp : opps.find? (fun o => decide (o.id = req.opportunityId)) with _ | opp
    · simpa [createApplicationPaystack, hopp] using hmo
    cases hIA : opp.isActive
    · simpa [createApplicationPaystack, hopp, hIA] using hmo
    rcases hfind : db.find? (pairPred user.id req.opportunityId) with _ | e
    · rcases hres : req.resume with _ | buf
      · simpa [createApplicationPaystack, createPaystackRest, hopp, hIA, hfind, hres]
          using hmo
      by_cases hatt : (decide (opp.type = "attachment") && req.recommendationLetter.isNone)
          = true
      · simpa [createApplicationPaystack, createPaystackRest, hopp, hIA, hfind, hres, hatt]
          using hmo
      · simp only [createApplicationPaystack, createPaystackRest, hopp, hIA, hfind, hres,
          hatt, Bool.false_eq_true, if_false, reduceIte]
        apply atMostOnePerPair_append_singleton hmo
        intro a ha hcontra
        have hnone := List.find?_eq_none.mp hfind a ha
        apply hnone
        simp only [pairPred, Bool.and_eq_true, decide_eq_true_eq]
        exact ⟨hcontra.1, hcontra.2⟩
    · by_cases hst : e.status = AppStatus.pending_payment
      · rcases hres : req.resume with _ | buf
        · simpa [createApplicationPaystack, createPaystackRest, hopp, hIA, hfind, hst, hres]
            using hmo
        by_cases hatt : (decide (opp.type = "attachment") &&
            req.recommendationLetter.isNone) = true
        · simpa [createApplicationPaystack, createPaystackRest, hopp, hIA, hfind, hst,
            hres, hatt] using hmo
        · simp only [createApplicationPaystack, createPaystackRest, hopp, hIA, hfind, hst,
            hres, hatt, Bool.true_eq_false, Bool.false_eq_true, if_false, if_true,
            reduceIte]
          apply atMostOnePerPair_updateFirst _ hmo
          intro a
          exact ⟨rfl, rfl⟩
      · simpa [createApplicationPaystack, hopp, hIA, hfind, hst] using hmo
  · intro upload db opps user req newId stkId opp e hopp hact hfind hne
    simp [createApplicationMpesa, hopp, hact, hfind, hne]

/-- Witness for C4 (amended): the 400 rejection in both flows for a
submitted duplicate, and store-size plus uniqueness preservation for the
Paystack flow over a store already holding the pending application. -/
theorem C4_witness :
    createApplicationPaystack exUpload [exSubmitted] [exOpp] exUser exReq "a2" =
      (Resp.mk 400 "You have already applied" none, [exSubmitted]) ∧
    ((createApplicationPaystack exUpload [exApp] [exOpp] exUser exReq "a2").2).length =
      [exApp].length ∧
    atMostOnePerPair (createApplicationPaystack exUpload [exApp] [exOpp] exUser exReq "a2").2 ∧
    createApplicationMpesa exUpload [exSubmitted] [exOpp] exUser exReq "a2" "stk" =
      (Resp.mk 400 "You have already applied" none, [exSubmitted]) := by
  refine ⟨?_, ?_, ?_, ?_⟩
  · exact C4_duplicate_applications.1 exUpload [exSubmitted] [exOpp] exUser exReq "a2"
      exOpp exSubmitted (by decide) rfl (by decide) (by decide)
  · exact C4_duplicate_applications.2.1 exUpload [exApp] [exOpp] exUser exReq "a2"
      (by decide)
  · exact C4_duplicate_applications.2.2.1 exUpload [exApp] [exOpp] exUser exReq "a2"
      (by unfold atMostOnePerPair; exact List.pairwise_singleton _ _)
  · exact C4_duplicate_applications.2.2.2 exUpload [exSubmitted] [exOpp] exUser exReq
      "a2" "stk" exOpp exSubmitted (by decide) rfl (by decide) (by decide)

end OppAttach


